import Mathlib

/-!
Verification of the conversation-reconstruction and turn-synthesis pipeline
of the `myvoice_lora` repository (`imessage_processor.py`, `config.py`).

The Python code is shallowly embedded: byte blobs are `List Nat` (each entry
a byte value), Python `str` is Lean `String`, `datetime` instants are `ℚ`
(seconds), SQLite rows are explicit structures, and the external collaborators
(the pyobjc unarchivers, `datetime.fromtimestamp`, `datetime.now`) are
parameters of the embedding, passed in as `Option`-valued functions so that a
raised exception is `none`.
-/

namespace MyVoice

/-- Model of Python's `str.strip()` whitespace class (`str.isspace`):
ASCII space, the control whitespace range 9–13, the separator controls 28–31,
and the Unicode space characters Python treats as whitespace. -/
def pyIsSpace (c : Char) : Bool :=
  c.toNat = 32 ∨ (9 ≤ c.toNat ∧ c.toNat ≤ 13) ∨ (28 ≤ c.toNat ∧ c.toNat ≤ 31) ∨
  c.toNat = 0x85 ∨ c.toNat = 0xa0 ∨ c.toNat = 0x1680 ∨
  (0x2000 ≤ c.toNat ∧ c.toNat ≤ 0x200a) ∨ c.toNat = 0x2028 ∨ c.toNat = 0x2029 ∨
  c.toNat = 0x202f ∨ c.toNat = 0x205f ∨ c.toNat = 0x3000

/-- Model of Python's `str.strip()`: drop leading and trailing whitespace. -/
def pyStrip (s : String) : String :=
  (((s.toList.dropWhile pyIsSpace).reverse.dropWhile pyIsSpace).reverse).asString

/-- Model of Python's `str.isprintable` for one character: false exactly on
control characters (C0, DEL, C1), soft hyphen, and the separator/space
category other than the ASCII space. -/
def pyIsPrintable (c : Char) : Bool :=
  ¬(c.toNat < 32 ∨ (0x7f ≤ c.toNat ∧ c.toNat ≤ 0xa0) ∨ c.toNat = 0xad ∨
    (pyIsSpace c ∧ c.toNat ≠ 32))

/-- A UTF-8 continuation byte. -/
def utf8Cont (b : Nat) : Bool := 0x80 ≤ b ∧ b ≤ 0xbf

/-- Second-byte constraint of a three-byte UTF-8 sequence with lead `b`. -/
def utf8Cont2 (b b2 : Nat) : Bool :=
  if b = 0xe0 then 0xa0 ≤ b2 ∧ b2 ≤ 0xbf
  else if b = 0xed then 0x80 ≤ b2 ∧ b2 ≤ 0x9f
  else utf8Cont b2

/-- Second-byte constraint of a four-byte UTF-8 sequence with lead `b`. -/
def utf8Cont3 (b b2 : Nat) : Bool :=
  if b = 0xf0 then 0x90 ≤ b2 ∧ b2 ≤ 0xbf
  else if b = 0xf4 then 0x80 ≤ b2 ∧ b2 ≤ 0x8f
  else utf8Cont b2

/-- The worker of `utf8DecodeIgnore`, structurally recursive on a fuel that
bounds the number of decoding steps; every step consumes at least one byte,
so fuel equal to the byte count is always enough. -/
def utf8DecodeIgnoreGo : Nat → List Nat → List Char
  | 0, _ => []
  | _, [] => []
  | fuel + 1, b :: rest =>
    if b ≤ 0x7f then Char.ofNat b :: utf8DecodeIgnoreGo fuel rest
    else if 0xc2 ≤ b ∧ b ≤ 0xdf then
      match rest with
      | b2 :: rest2 =>
        if utf8Cont b2 then
          Char.ofNat ((b - 0xc0) * 64 + (b2 - 0x80)) ::
            utf8DecodeIgnoreGo fuel rest2
        else utf8DecodeIgnoreGo fuel (b2 :: rest2)
      | [] => []
    else if 0xe0 ≤ b ∧ b ≤ 0xef then
      match rest with
      | b2 :: b3 :: rest3 =>
        if utf8Cont2 b b2 ∧ utf8Cont b3 then
          Char.ofNat ((b - 0xe0) * 4096 + (b2 - 0x80) * 64 + (b3 - 0x80)) ::
            utf8DecodeIgnoreGo fuel rest3
        else utf8DecodeIgnoreGo fuel (b2 :: b3 :: rest3)
      | [b2] => utf8DecodeIgnoreGo fuel [b2]
      | [] => []
    else if 0xf0 ≤ b ∧ b ≤ 0xf4 then
      match rest with
      | b2 :: b3 :: b4 :: rest4 =>
        if utf8Cont3 b b2 ∧ utf8Cont b3 ∧ utf8Cont b4 then
          Char.ofNat ((b - 0xf0) * 262144 + (b2 - 0x80) * 4096 +
              (b3 - 0x80) * 64 + (b4 - 0x80)) ::
            utf8DecodeIgnoreGo fuel rest4
        else utf8DecodeIgnoreGo fuel (b2 :: b3 :: b4 :: rest4)
      | [b2, b3] => utf8DecodeIgnoreGo fuel [b2, b3]
      | [b2] => utf8DecodeIgnoreGo fuel [b2]
      | [] => []
    else utf8DecodeIgnoreGo fuel rest

/-- Model of Python's `bytes.decode('utf-8', errors='ignore')`: standard UTF-8
decoding where every ill-formed byte is skipped instead of raising. -/
def utf8DecodeIgnore (data : List Nat) : List Char :=
  utf8DecodeIgnoreGo data.length data

/-- `config.py` line 45: `PROCESS_GROUP_CHATS = False`. -/
def PROCESS_GROUP_CHATS : Bool := false

/-- `config.py` line 25: `MAX_TURN_GAP_SECONDS = 3000`. -/
def MAX_TURN_GAP_SECONDS : Nat := 3000

/-- The external time collaborators of `convert_messages_timestamp`:
`datetime.fromtimestamp` (whose raised `OSError`/`ValueError` is modelled as
`none`) and `datetime.now()`. Instants are rational seconds. -/
structure TimeEnv where
  fromtimestamp : ℚ → Option ℚ
  now : ℚ

/-- `convert_messages_timestamp` (lines 67–85): divide the raw value by 1e9,
add the 2001 epoch offset, call `datetime.fromtimestamp`; on
`OSError`/`ValueError` return `datetime.now()`. -/
def convert_messages_timestamp (env : TimeEnv) (timestamp : Int) : ℚ :=
  match env.fromtimestamp ((timestamp : ℚ) / 1000000000 + 978307200) with
  | some d => d
  | none => env.now

/-- The external pyobjc collaborators of `decode_attributed_body`:
`PYOBJC_AVAILABLE`, and the two archive decoders. `keyedUnarchive data = some s`
models the modern `NSKeyedUnarchiver` step recovering `s` (an exception, a
falsy object, or an object without a `string` attribute are all `none`);
`legacyUnarchive` models the `NSUnarchiver` step the same way. -/
structure DecodeEnv where
  pyobjcAvailable : Bool
  keyedUnarchive : List Nat → Option String
  legacyUnarchive : List Nat → Option String

/-- The raw-salvage step of `decode_attributed_body` (lines 127–138): decode
the blob as UTF-8 with invalid bytes ignored, strip it, keep only printable
characters, and accept the result only when longer than 2 characters. -/
def rawSalvageDecode (data : List Nat) : Option String :=
  let text := pyStrip (utf8DecodeIgnore data).asString
  let clean := (text.toList.filter pyIsPrintable).asString
  if clean.length > 2 then some clean else none

/-- `decode_attributed_body` (lines 87–138): `None` on an empty blob; when
pyobjc is unavailable, the plain UTF-8-ignore decode, stripped (this branch's
`try` cannot fail, so its `except` is unreachable); otherwise the keyed
unarchiver, then the legacy unarchiver, then the raw salvage step. -/
def decode_attributed_body (env : DecodeEnv) (data : List Nat) : Option String :=
  if data = [] then none
  else if env.pyobjcAvailable = false then
    some (pyStrip (utf8DecodeIgnore data).asString)
  else
    match env.keyedUnarchive data with
    | some s => some s
    | none =>
      match env.legacyUnarchive data with
      | some s => some s
      | none => rawSalvageDecode data

/-- `extract_message_text` (lines 140–159): the `text` column wins when truthy
with a truthy `strip()`; otherwise a non-empty `attributedBody` is decoded;
otherwise `None`. -/
def extract_message_text (env : DecodeEnv) (text : Option String)
    (attributedBody : List Nat) : Option String :=
  match text with
  | some t =>
    if t ≠ "" ∧ pyStrip t ≠ "" then some (pyStrip t)
    else if attributedBody ≠ [] then decode_attributed_body env attributedBody
    else none
  | none =>
    if attributedBody ≠ [] then decode_attributed_body env attributedBody
    else none

/-- The tapback verbs of the regex
`^(Liked|Loved|Laughed at|Disliked|Emphasized|Questioned)`, lowered. -/
def tapbackVerbs : List String :=
  ["liked", "loved", "laughed at", "disliked", "emphasized", "questioned"]

/-- `re.match` of the first tapback pattern with `re.IGNORECASE`: the text
starts with one of the verbs, case-insensitively. The second pattern of the
source, `^(verbs) ".*"$`, is subsumed by the first (every string it matches
already starts with a verb), so the loop over both patterns is equivalent to
this single test. -/
def matchesTapback (text : String) : Bool :=
  tapbackVerbs.any (fun v => v.toList.isPrefixOf (text.toList.map Char.toLower))

/-- The attachment placeholder tokens of the regexes `^\[IMAGE\]$` … lowered. -/
def attachmentTokens : List String :=
  ["[image]", "[url]", "[video]", "[audio]", "[file]"]

/-- `re.match` of an attachment pattern with `re.IGNORECASE`: Python's `$`
matches at the end of the string or just before a trailing newline, so the
text (lowered) is the token itself or the token followed by one `'\n'`. -/
def matchesAttachment (text : String) : Bool :=
  attachmentTokens.any (fun tok =>
    text.toList.map Char.toLower = tok.toList ∨
    text.toList.map Char.toLower = tok.toList ++ ['\n'])

/-- `is_junk_message` (lines 161–201): empty text, a tapback, a bare
attachment placeholder, or a stripped length below 2. -/
def is_junk_message (text : String) : Bool :=
  if text = "" then true
  else if matchesTapback text then true
  else if matchesAttachment text then true
  else if (pyStrip text).length < 2 then true
  else false

/-- One row of the message query of `get_messages_for_conversation`
(lines 264–296): `m.ROWID`, `m.text`, `m.attributedBody`, `m.date`,
`m.is_from_me` (a SQLite integer), `h.id`, `h.uncanonicalized_id`. -/
structure MessageRow where
  message_id : Int
  text : Option String
  attributedBody : List Nat
  date : Int
  is_from_me : Int
  handle_id : Option String
  phone_number : Option String
deriving DecidableEq

/-- One entry of the message dictionaries built at lines 311–318. -/
structure ProcessedMessage where
  message_id : Int
  text : String
  date : ℚ
  is_from_me : Bool
  sender_id : Option String
  phone_number : Option String
deriving DecidableEq

/-- `get_messages_for_conversation` (lines 244–327) after the store returned
`rows` for the requested chat ids (the SQL query, its `DAYS_BACK` cutoff and
its `ORDER BY` are the external store's side; `rows` is its result in store
order, arbitrary here): return `[]` without a connection or with no chat ids;
otherwise extract each row's text, drop the row when extraction fails or the
text is junk, convert the timestamp, and re-sort the survivors by date in
Python (`messages.sort(key=lambda m: m['date'])`). The per-row body of the
loop (lines 304–318) is `processRow`. -/
def processRow (denv : DecodeEnv) (tenv : TimeEnv) (row : MessageRow) :
    Option ProcessedMessage :=
  match extract_message_text denv row.text row.attributedBody with
  | some t =>
    if is_junk_message t then none
    else some { message_id := row.message_id, text := t,
                date := convert_messages_timestamp tenv row.date,
                is_from_me := row.is_from_me ≠ 0,
                sender_id := row.handle_id,
                phone_number := row.phone_number }
  | none => none

def get_messages_for_conversation (denv : DecodeEnv) (tenv : TimeEnv)
    (conn : Bool) (chat_ids : List Int) (rows : List MessageRow) :
    List ProcessedMessage :=
  if conn = false ∨ chat_ids = [] then []
  else
    (rows.filterMap (processRow denv tenv)).insertionSort
      (fun a b => a.date ≤ b.date)

/-- The `current_turn` accumulator of `group_messages_into_turns` before it is
closed: the same fields as a turn, minus the joined `text`. -/
structure CurrentTurn where
  sender_id : Option String
  is_from_me : Bool
  messages : List String
  start_time : ℚ
  end_time : ℚ
deriving DecidableEq

/-- A closed turn (lines 342–372): the accumulator fields plus
`text = ' '.join(messages)` set when the turn is closed. -/
structure Turn where
  sender_id : Option String
  is_from_me : Bool
  messages : List String
  start_time : ℚ
  end_time : ℚ
  text : String
deriving DecidableEq

/-- Seeding of `current_turn` from a message (lines 343–349 and 362–368). -/
def seedTurn (m : ProcessedMessage) : CurrentTurn :=
  { sender_id := m.sender_id, is_from_me := m.is_from_me,
    messages := [m.text], start_time := m.date, end_time := m.date }

/-- Closing of `current_turn` (lines 359 and 371):
`current_turn['text'] = ' '.join(current_turn['messages'])`. -/
def freezeTurn (c : CurrentTurn) : Turn :=
  { sender_id := c.sender_id, is_from_me := c.is_from_me,
    messages := c.messages, start_time := c.start_time,
    end_time := c.end_time, text := String.intercalate " " c.messages }

/-- Extension of `current_turn` by a same-sender message (lines 355–356):
append its text and advance `end_time`. -/
def extendTurn (current : CurrentTurn) (m : ProcessedMessage) : CurrentTurn :=
  { current with messages := current.messages ++ [m.text],
                 end_time := m.date }

/-- The loop of `group_messages_into_turns` over `messages[1:]`
(lines 351–372): extend the accumulator on an equal
`(sender_id, is_from_me)` pair, otherwise close it and seed a new one; after
the last message the accumulator is closed and appended. -/
def turnsGo (current : CurrentTurn) : List ProcessedMessage → List Turn
  | [] => [freezeTurn current]
  | m :: rest =>
    if m.sender_id = current.sender_id ∧ m.is_from_me = current.is_from_me then
      turnsGo (extendTurn current m) rest
    else
      freezeTurn current :: turnsGo (seedTurn m) rest

/-- `group_messages_into_turns` (lines 329–374): `[]` on empty input,
otherwise seed the accumulator from the first message and run the loop. -/
def group_messages_into_turns : List ProcessedMessage → List Turn
  | [] => []
  | m :: rest => turnsGo (seedTurn m) rest

/-- A placeholder turn for the (never reached) out-of-range branch of the
`turns[i-1]` index translation. -/
def dummyTurn : Turn :=
  { sender_id := none, is_from_me := false, messages := [],
    start_time := 0, end_time := 0, text := "" }

/-- The `enumerate(turns)` loop of `create_training_examples`
(lines 386–400), carrying the running index `i` so that `turns[i-1]` is
`turns.getD (i-1)`, which never falls back to the default inside the loop. -/
def cteGo (turns : List Turn) : Nat → List Turn → List (String × String)
  | _, [] => []
  | i, t :: rest =>
    (if t.is_from_me then
      [(if i > 0 then (turns.getD (i - 1) dummyTurn).text
        else "[CONVERSATION_STARTER]", t.text)]
     else []) ++ cteGo turns (i + 1) rest

/-- `create_training_examples` (lines 376–400): one `(input, output)` pair per
`is_from_me` turn, the input being the previous turn's text or the literal
`"[CONVERSATION_STARTER]"`. -/
def create_training_examples (turns : List Turn) : List (String × String) :=
  cteGo turns 0 turns

/-- Python's string comparison for `sorted`: lexicographic by code points,
modelled through the lexicographic order on the character lists. -/
def pyStrLe (a b : String) : Prop := a.toList ≤ b.toList

instance : DecidableRel pyStrLe := fun a b =>
  inferInstanceAs (Decidable (a.toList ≤ b.toList))

instance : IsTotal String pyStrLe := ⟨fun a b => le_total a.toList b.toList⟩

instance : IsTrans String pyStrLe :=
  ⟨fun _ _ _ h1 h2 => le_trans (α := List Char) h1 h2⟩

instance : IsAntisymm String pyStrLe :=
  ⟨fun a b h1 h2 => by
    have h := le_antisymm (α := List Char) h1 h2
    cases a; cases b; exact congrArg String.mk h⟩

/-- `tuple(sorted(participants))` (line 232): the participant key as a
function of the handle list. -/
def participant_key (handles : List String) : List String :=
  handles.insertionSort pyStrLe

/-- The worker of `pySplitComma`, accumulating the current field reversed. -/
def pySplitCommaGo : List Char → List Char → List String
  | [], acc => [acc.reverse.asString]
  | c :: cs, acc =>
    if c = ',' then acc.reverse.asString :: pySplitCommaGo cs []
    else pySplitCommaGo cs (c :: acc)

/-- Model of Python's `participants_str.split(',')`: cut at every comma,
keeping empty fields (so the split of a non-empty string is non-empty). -/
def pySplitComma (s : String) : List String := pySplitCommaGo s.toList []

/-- Line 232 in full: split the `GROUP_CONCAT` string on commas and sort. -/
def participant_key_of_str (participants_str : String) : List String :=
  participant_key (pySplitComma participants_str)

/-- Lines 233–235: ensure the key's bucket exists, then append the chat id to
it (a Python dict keeps keys in first-insertion order, modelled by an
association list). -/
def addChat (convs : List (List String × List Int)) (key : List String)
    (chat_id : Int) : List (List String × List Int) :=
  if convs.any (fun p => p.1 = key) then
    convs.map (fun p => if p.1 = key then (p.1, p.2 ++ [chat_id]) else p)
  else convs ++ [(key, [chat_id])]

/-- `get_all_conversations` (lines 203–242) after the store returned `rows` of
`(chat_id, participants_str)` (one per chat, in `ORDER BY c.ROWID` order):
`{}` without a connection; rows with a falsy participant string are dropped;
the rest are bucketed under their sorted participant key. -/
def get_all_conversations (conn : Bool) (rows : List (Int × String)) :
    List (List String × List Int) :=
  if conn = false then []
  else rows.foldl (fun convs row =>
    if row.2 ≠ "" then addChat convs (participant_key_of_str row.2) row.1
    else convs) []

/-- The 1-on-1 filter of `process_all_conversations` (lines 414–419): when
`PROCESS_GROUP_CHATS` is false, keep only the buckets whose participant key
has exactly one handle. -/
def filter_one_on_one (processGroupChats : Bool)
    (convs : List (List String × List Int)) : List (List String × List Int) :=
  if processGroupChats = false then convs.filter (fun p => p.1.length = 1)
  else convs

/-- The junk classification exactly as the claim states it: empty text, a
reaction shorthand anchored at the start, a bare media-placeholder token with
nothing else, or a trimmed length below 2. -/
def junkClaimed (text : String) : Bool :=
  text = "" ∨ matchesTapback text = true ∨
  attachmentTokens.any (fun tok => text.toList.map Char.toLower = tok.toList) ∨
  (pyStrip text).length < 2

/-- The junk classification amended for Python's `$`: a media-placeholder
token may carry one trailing newline. -/
def junkAmended (text : String) : Bool :=
  text = "" ∨ matchesTapback text = true ∨ matchesAttachment text = true ∨
  (pyStrip text).length < 2

/-- The training-pair rule as the claim states it, carrying the previous
turn's text: one pair per `is_from_me` turn, in turn order, with the sentinel
as input when no previous turn exists. -/
def pairsSpec : Option String → List Turn → List (String × String)
  | _, [] => []
  | prev, t :: rest =>
    (if t.is_from_me then [(prev.getD "[CONVERSATION_STARTER]", t.text)]
     else []) ++ pairsSpec (some t.text) rest

/-- Two messages identical except possibly in their timestamp. -/
def sameButTime (m1 m2 : ProcessedMessage) : Prop :=
  m1.message_id = m2.message_id ∧ m1.text = m2.text ∧
  m1.is_from_me = m2.is_from_me ∧ m1.sender_id = m2.sender_id ∧
  m1.phone_number = m2.phone_number

/-- The timestamp-independent part of a turn. -/
def turnShape (t : Turn) : Option String × Bool × List String :=
  (t.sender_id, t.is_from_me, t.messages)

/-- `t` is the turn built from the consecutive message block `b`: the block
is non-empty, the turn's message list is the block's texts, and every message
of the block carries the turn's `(sender_id, is_from_me)` pair. -/
def TurnOf (b : List ProcessedMessage) (t : Turn) : Prop :=
  b ≠ [] ∧ t.messages = b.map ProcessedMessage.text ∧
  ∀ m ∈ b, m.sender_id = t.sender_id ∧ m.is_from_me = t.is_from_me

/-- Adjacent turns carry different `(sender_id, is_from_me)` pairs. -/
def turnsDiffer (t1 t2 : Turn) : Prop :=
  ¬(t2.sender_id = t1.sender_id ∧ t2.is_from_me = t1.is_from_me)

/-- A decode environment with pyobjc unavailable. -/
def denv0 : DecodeEnv :=
  { pyobjcAvailable := false, keyedUnarchive := fun _ => none,
    legacyUnarchive := fun _ => none }

/-- A time environment whose `fromtimestamp` never raises. -/
def tenv0 : TimeEnv := { fromtimestamp := fun q => some q, now := 0 }

/-- A time environment whose `fromtimestamp` always raises and whose
`datetime.now()` is 777. -/
def tenvBad : TimeEnv := { fromtimestamp := fun _ => none, now := 777 }

/-- A row whose text is the tapback `Loved "ok"`. -/
def lovedOkRow : MessageRow :=
  { message_id := 1, text := some "Loved \"ok\"", attributedBody := [],
    date := 0, is_from_me := 0, handle_id := some "A", phone_number := none }

/-- A row whose raw timestamp makes `datetime.fromtimestamp` raise. -/
def badTsRow : MessageRow :=
  { message_id := 5, text := some "hello there", attributedBody := [],
    date := 123, is_from_me := 1, handle_id := none, phone_number := none }

/-- Scenario A of the spec: two messages from A, then one from Me. -/
def scenAMsgs : List ProcessedMessage :=
  [{ message_id := 1, text := "hi", date := 1, is_from_me := false,
     sender_id := some "A", phone_number := none },
   { message_id := 2, text := "there", date := 2, is_from_me := false,
     sender_id := some "A", phone_number := none },
   { message_id := 3, text := "hey", date := 3, is_from_me := true,
     sender_id := none, phone_number := none }]

/-- A grouping with one 1-on-1 bucket and one group bucket. -/
def c7convs : List (List String × List Int) :=
  [(["A"], [1]), (["A", "B"], [2])]

/-- C10: when `datetime.fromtimestamp` raises on the converted value,
`convert_messages_timestamp` returns `datetime.now()` instead of failing, and
a message carrying such a corrupt timestamp is kept in the merged result,
re-dated to the moment of the run. -/
theorem C10_corrupt_timestamp_now :
    (∀ (tenv : TimeEnv) (t : Int),
      tenv.fromtimestamp ((t : ℚ) / 1000000000 + 978307200) = none →
      convert_messages_timestamp tenv t = tenv.now) ∧
    get_messages_for_conversation denv0 tenvBad true [1] [badTsRow] =
      [{ message_id := 5, text := "hello there", date := 777,
         is_from_me := true, sender_id := none, phone_number := none }] := by
  constructor
  · intro tenv t h
    simp [convert_messages_timestamp, h]
  · rfl

/-- Witness for C10 at `tenvBad` and raw timestamp 123. -/
theorem C10_corrupt_timestamp_now_witness :
    convert_messages_timestamp tenvBad 123 = 777 :=
  C10_corrupt_timestamp_now.1 tenvBad 123 rfl

/-- C7: with `PROCESS_GROUP_CHATS = False`, the filtered mapping holds only
single-participant keys, and every bucket whose key has more than one handle
is dropped. -/
theorem C7_group_chat_filter :
    ∀ convs : List (List String × List Int),
      (∀ e ∈ filter_one_on_one PROCESS_GROUP_CHATS convs, e.1.length = 1) ∧
      (∀ e ∈ convs, 1 < e.1.length →
        e ∉ filter_one_on_one PROCESS_GROUP_CHATS convs) := by
  intro convs
  have hdef : filter_one_on_one PROCESS_GROUP_CHATS convs =
      convs.filter (fun p => p.1.length = 1) := rfl
  constructor
  · intro e he
    rw [hdef, List.mem_filter] at he
    exact of_decide_eq_true he.2
  · intro e _ hlen hmem
    rw [hdef, List.mem_filter] at hmem
    have := of_decide_eq_true hmem.2
    omega

/-- Witness for C7: the group bucket of `c7convs` is dropped. -/
theorem C7_group_chat_filter_witness :
    (["A", "B"], ([2] : List Int)) ∉
      filter_one_on_one PROCESS_GROUP_CHATS c7convs :=
  (C7_group_chat_filter c7convs).2 _ (by decide) (by decide)

/-- C5 counterexample: with pyobjc unavailable, `decode_attributed_body` on
the blob `b"ab"` returns `some "ab"`, while the raw salvage step of the
fallback chain returns `none` (the printable length 2 is not `> 2`), so the
no-library path is not extensionally equal to the salvage step. -/
theorem C5_counterexample :
    decode_attributed_body denv0 [97, 98] ≠ rawSalvageDecode [97, 98] := by
  decide

/-- C5 amended: with pyobjc unavailable, `decode_attributed_body` on every
non-empty blob returns `some` of the UTF-8-with-ignore decode stripped of
surrounding whitespace — with no printable-character filtering and no
minimum-length acceptance check, unlike the salvage step. -/
theorem C5_no_pyobjc_is_plain_decode (env : DecodeEnv) (data : List Nat)
    (henv : env.pyobjcAvailable = false) (hdata : data ≠ []) :
    decode_attributed_body env data =
      some (pyStrip (utf8DecodeIgnore data).asString) := by
  simp [decode_attributed_body, henv, hdata]

/-- Witness for C5 at the blob `b"ab"`. -/
theorem C5_no_pyobjc_is_plain_decode_witness :
    decode_attributed_body denv0 [97, 98] = some "ab" := by
  rw [C5_no_pyobjc_is_plain_decode denv0 [97, 98] rfl (by decide)]
  rfl

/-- C8: a `text` column that is non-empty after trimming always wins,
regardless of the binary column; and when the text path is unavailable and
every step of the binary fallback chain fails, `extract_message_text` returns
`none` rather than raising. -/
theorem C8_extract_text_contract :
    (∀ (env : DecodeEnv) (t : String) (ab : List Nat), pyStrip t ≠ "" →
      extract_message_text env (some t) ab = some (pyStrip t)) ∧
    (∀ (keyed legacy : List Nat → Option String) (text : Option String)
        (ab : List Nat),
      (∀ t, text = some t → pyStrip t = "") →
      keyed ab = none → legacy ab = none → rawSalvageDecode ab = none →
      extract_message_text
        { pyobjcAvailable := true, keyedUnarchive := keyed,
          legacyUnarchive := legacy } text ab = none) := by
  constructor
  · intro env t ab h
    have ht : t ≠ "" := by rintro rfl; exact h rfl
    simp [extract_message_text, ht, h]
  · intro keyed legacy text ab htext hk hl hs
    have hdec : decode_attributed_body
        { pyobjcAvailable := true, keyedUnarchive := keyed,
          legacyUnarchive := legacy } ab = none := by
      by_cases hne : ab = []
      · simp [decode_attributed_body, hne]
      · simp [decode_attributed_body, hne, hk, hl, hs]
    cases text with
    | none =>
      by_cases hne : ab = [] <;> simp [extract_message_text, hne, hdec]
    | some t =>
      have ht := htext t rfl
      by_cases hne : ab = [] <;> simp [extract_message_text, ht, hne, hdec]

/-- C4 counterexample: the text `"[IMAGE]\n"` is classified junk by the code
(Python's `$` in `^\[IMAGE\]$` also matches just before a trailing newline),
but it is not junk under the claim's rule, whose placeholder clause demands
the bare token with nothing else. -/
theorem C4_counterexample :
    is_junk_message "[IMAGE]\n" = true ∧ junkClaimed "[IMAGE]\n" = false := by
  decide

/-- C4 amended: `is_junk_message` returns true iff the text is empty, starts
with a reaction verb (case-insensitive), is a bare media-placeholder token
(case-insensitive, optionally followed by one trailing newline), or strips to
fewer than 2 characters; in particular `Loved "ok"` is junk and a row bearing
it is dropped from the merged message list. -/
theorem C4_junk_rule :
    (∀ text : String, is_junk_message text = junkAmended text) ∧
    is_junk_message "Loved \"ok\"" = true ∧
    get_messages_for_conversation denv0 tenv0 true [1] [lovedOkRow] = [] := by
  refine ⟨?_, by decide, by decide⟩
  intro text
  simp only [is_junk_message, junkAmended]
  split_ifs with h1 h2 h3 h4 <;> simp_all

/-- C6 counterexample: the participant key is not deduplicated — listing a
handle twice yields a different key than listing it once, contradicting the
claim's "deduplicated" and "listing a handle twice yields the same key". -/
theorem C6_counterexample :
    participant_key ["A", "A"] ≠ participant_key ["A"] := by decide

/-- C6 amended: the participant key is an order-independent sorted tuple with
duplicates preserved: permuting the handles yields the same key, and two
physical threads with the same participant set (both `{A}`) are bucketed into
one logical conversation. -/
theorem C6_key_order_independent :
    (∀ l1 l2 : List String, l1.Perm l2 →
      participant_key l1 = participant_key l2) ∧
    get_all_conversations true [(1, "A"), (2, "A")] = [(["A"], [1, 2])] := by
  constructor
  · intro l1 l2 h
    exact List.eq_of_perm_of_sorted
      (((List.perm_insertionSort pyStrLe l1).trans h).trans
        (List.perm_insertionSort pyStrLe l2).symm)
      (List.sorted_insertionSort pyStrLe l1)
      (List.sorted_insertionSort pyStrLe l2)
  · decide

/-- Witness for C6 at the permuted handle lists `["B", "A"]` and
`["A", "B"]`. -/
theorem C6_key_order_independent_witness :
    participant_key ["B", "A"] = participant_key ["A", "B"] :=
  C6_key_order_independent.1 ["B", "A"] ["A", "B"] (by decide)

/-- The `turns[i - 1]` access of the loop: at index `pre.length` into
`pre ++ suffix` with `pre` the already-consumed turns, `turns[i-1]` is the
last consumed turn. -/
theorem cteGo_eq_pairsSpec (turns : List Turn) :
    ∀ (suffix pre : List Turn), turns = pre ++ suffix →
      cteGo turns pre.length suffix =
        pairsSpec (pre.getLast?.map Turn.text) suffix := by
  intro suffix
  induction suffix with
  | nil => intro pre h; rfl
  | cons t rest ih =>
    intro pre h
    have hrec : cteGo turns (pre.length + 1) rest =
        pairsSpec (some t.text) rest := by
      have h2 : turns = (pre ++ [t]) ++ rest := by
        rw [h, List.append_assoc]; rfl
      have h3 := ih (pre ++ [t]) h2
      simpa [List.getLast?_concat] using h3
    have hprev : (if pre.length > 0 then
          (turns.getD (pre.length - 1) dummyTurn).text
        else "[CONVERSATION_STARTER]") =
        (pre.getLast?.map Turn.text).getD "[CONVERSATION_STARTER]" := by
      cases pre with
      | nil => rfl
      | cons p ps =>
        have hpos : (p :: ps).length > 0 := by simp
        have hlt : (p :: ps).length - 1 < (p :: ps).length := by simp
        rw [if_pos hpos, List.getD_eq_getElem?_getD, h,
          List.getElem?_append, if_pos hlt, ← List.getLast?_eq_getElem?]
        match hx : (p :: ps).getLast? with
        | none => exact absurd (List.getLast?_eq_none_iff.mp hx) (by simp)
        | some x => rfl
    simp only [cteGo, pairsSpec, hrec, hprev]

/-- The number of pairs emitted equals the number of `is_from_me` turns. -/
theorem pairsSpec_length : ∀ (prev : Option String) (ts : List Turn),
    (pairsSpec prev ts).length =
      (ts.filter (fun t => t.is_from_me)).length := by
  intro prev ts
  induction ts generalizing prev with
  | nil => rfl
  | cons t rest ih =>
    by_cases hf : t.is_from_me <;> simp [pairsSpec, List.filter_cons, hf, ih]

/-- C2: `create_training_examples` emits exactly one `(input, output)` pair
per `is_from_me` turn, in turn order, with the turn's text as output and the
previous turn's text — or the `"[CONVERSATION_STARTER]"` sentinel for a
leading self turn — as input; the pair count equals the `is_from_me` turn
count exactly. -/
theorem C2_training_pairs :
    ∀ turns : List Turn,
      create_training_examples turns = pairsSpec none turns ∧
      (create_training_examples turns).length =
        (turns.filter (fun t => t.is_from_me)).length := by
  intro turns
  have h : create_training_examples turns = pairsSpec none turns :=
    cteGo_eq_pairsSpec turns turns [] rfl
  exact ⟨h, by rw [h]; exact pairsSpec_length none turns⟩

/-- The segmenter loop maps related message lists (equal except timestamps)
and related accumulators to turn lists of identical shape. -/
theorem turnsGo_shape :
    ∀ {l1 l2 : List ProcessedMessage}, List.Forall₂ sameButTime l1 l2 →
      ∀ (c1 c2 : CurrentTurn), c1.sender_id = c2.sender_id →
        c1.is_from_me = c2.is_from_me → c1.messages = c2.messages →
        (turnsGo c1 l1).map turnShape = (turnsGo c2 l2).map turnShape := by
  intro l1 l2 h
  induction h with
  | nil =>
    intro c1 c2 hs hf hm
    simp [turnsGo, freezeTurn, turnShape, hs, hf, hm]
  | @cons a b l1 l2 hrel hrest ih =>
    intro c1 c2 hs hf hm
    obtain ⟨_, htext, hfm, hsender, _⟩ := hrel
    have hcond2 : (b.sender_id = c2.sender_id ∧ b.is_from_me = c2.is_from_me)
        ↔ (a.sender_id = c1.sender_id ∧ a.is_from_me = c1.is_from_me) := by
      rw [hsender, hfm, hs, hf]
    by_cases hcond : a.sender_id = c1.sender_id ∧ a.is_from_me = c1.is_from_me
    · simp only [turnsGo, if_pos hcond, if_pos (hcond2.mpr hcond)]
      exact ih _ _ hs hf (by simp [extendTurn, hm, htext])
    · simp only [turnsGo, if_neg hcond,
        if_neg (fun hc => hcond (hcond2.mp hc)), List.map_cons]
      congr 1
      · simp [freezeTurn, turnShape, hs, hf, hm]
      · exact ih _ _ (by simp [seedTurn, hsender]) (by simp [seedTurn, hfm])
          (by simp [seedTurn, htext])

/-- C9: turn boundaries depend only on `(sender_id, is_from_me)`: two message
lists identical except in timestamps segment into turn lists with identical
sender/self/message-list structure, so `MAX_TURN_GAP_SECONDS` plays no role
in `group_messages_into_turns`. -/
theorem C9_turn_boundaries_ignore_time :
    ∀ l1 l2 : List ProcessedMessage, List.Forall₂ sameButTime l1 l2 →
      (group_messages_into_turns l1).map turnShape =
        (group_messages_into_turns l2).map turnShape := by
  intro l1 l2 h
  cases h with
  | nil => rfl
  | @cons a b l1 l2 hrel hrest =>
    obtain ⟨_, htext, hfm, hsender, _⟩ := hrel
    exact turnsGo_shape hrest (seedTurn a) (seedTurn b)
      (by simp [seedTurn, hsender]) (by simp [seedTurn, hfm])
      (by simp [seedTurn, htext])

/-- Witness for C9: the same two messages under two different timestamp
assignments segment identically. -/
theorem C9_turn_boundaries_ignore_time_witness :
    (group_messages_into_turns
        [{ message_id := 1, text := "hi", date := 0, is_from_me := false,
           sender_id := some "A", phone_number := none },
         { message_id := 2, text := "yo", date := 50, is_from_me := true,
           sender_id := none, phone_number := none }]).map turnShape =
      (group_messages_into_turns
        [{ message_id := 1, text := "hi", date := 9, is_from_me := false,
           sender_id := some "A", phone_number := none },
         { message_id := 2, text := "yo", date := 1000, is_from_me := true,
           sender_id := none, phone_number := none }]).map turnShape :=
  C9_turn_boundaries_ignore_time _ _
    (List.Forall₂.cons ⟨rfl, rfl, rfl, rfl, rfl⟩
      (List.Forall₂.cons ⟨rfl, rfl, rfl, rfl, rfl⟩ List.Forall₂.nil))

/-- C3: the merged message list is always non-decreasing by timestamp, and
an empty chat-id list or a fully filtered-out row set yields the empty list
rather than an error. -/
theorem C3_merge_sorted :
    ∀ (denv : DecodeEnv) (tenv : TimeEnv) (conn : Bool) (chat_ids : List Int)
      (rows : List MessageRow),
      List.Sorted (fun a b => a.date ≤ b.date)
        (get_messages_for_conversation denv tenv conn chat_ids rows) ∧
      (chat_ids = [] →
        get_messages_for_conversation denv tenv conn chat_ids rows = []) ∧
      ((∀ row ∈ rows, ∀ t,
          extract_message_text denv row.text row.attributedBody = some t →
          is_junk_message t = true) →
        get_messages_for_conversation denv tenv conn chat_ids rows = []) := by
  intro denv tenv conn ids rows
  haveI : IsTotal ProcessedMessage (fun a b => a.date ≤ b.date) :=
    ⟨fun a b => le_total a.date b.date⟩
  haveI : IsTrans ProcessedMessage (fun a b => a.date ≤ b.date) :=
    ⟨fun _ _ _ h1 h2 => le_trans h1 h2⟩
  refine ⟨?_, ?_, ?_⟩
  · unfold get_messages_for_conversation
    by_cases hc : conn = false ∨ ids = []
    · simp [hc]
    · simp only [if_neg hc]
      exact List.sorted_insertionSort _ _
  · intro hids
    unfold get_messages_for_conversation
    simp [hids]
  · intro hall
    unfold get_messages_for_conversation
    by_cases hc : conn = false ∨ ids = []
    · simp [hc]
    · simp only [if_neg hc]
      have hnil : rows.filterMap (processRow denv tenv) = [] :=
        List.filterMap_eq_nil_iff.mpr (fun row hrow => by
          cases hext : extract_message_text denv row.text row.attributedBody
          · simp [processRow, hext]
          · next t => simp [processRow, hext, hall row hrow t hext])
      rw [hnil]
      rfl

/-- Witness for C3 at an empty chat-id list. -/
theorem C3_merge_sorted_witness :
    get_messages_for_conversation denv0 tenv0 true [] [] = [] :=
  (C3_merge_sorted denv0 tenv0 true [] []).2.1 rfl

/-- The segmenter loop, started on an accumulator representing the non-empty
consecutive block `b`, produces a block decomposition of `b ++ msgs`: one
non-empty uniform block per emitted turn, adjacent turns differing, and the
first turn carrying the accumulator's pair. -/
theorem turnsGo_decomp :
    ∀ (msgs b : List ProcessedMessage) (c : CurrentTurn), b ≠ [] →
      c.messages = b.map ProcessedMessage.text →
      (∀ m ∈ b, m.sender_id = c.sender_id ∧ m.is_from_me = c.is_from_me) →
      ∃ blocks : List (List ProcessedMessage),
        blocks.flatten = b ++ msgs ∧
        List.Forall₂ TurnOf blocks (turnsGo c msgs) ∧
        List.Chain' turnsDiffer (turnsGo c msgs) ∧
        ∃ t0 ts, turnsGo c msgs = t0 :: ts ∧
          t0.sender_id = c.sender_id ∧ t0.is_from_me = c.is_from_me := by
  intro msgs
  induction msgs with
  | nil =>
    intro b c hb hm hall
    refine ⟨[b], by simp, ?_, by simp [turnsGo],
      freezeTurn c, [], rfl, rfl, rfl⟩
    refine List.Forall₂.cons ⟨hb, ?_, ?_⟩ List.Forall₂.nil
    · simpa [freezeTurn] using hm
    · intro m hmem
      simpa [freezeTurn] using hall m hmem
  | cons m rest ih =>
    intro b c hb hm hall
    by_cases hcond : m.sender_id = c.sender_id ∧ m.is_from_me = c.is_from_me
    · have hstep : turnsGo c (m :: rest) = turnsGo (extendTurn c m) rest := by
        simp [turnsGo, if_pos hcond]
      have h2 : (extendTurn c m).messages =
          (b ++ [m]).map ProcessedMessage.text := by simp [extendTurn, hm]
      have h3 : ∀ m' ∈ b ++ [m],
          m'.sender_id = (extendTurn c m).sender_id ∧
          m'.is_from_me = (extendTurn c m).is_from_me := by
        intro m' hm'
        rcases List.mem_append.mp hm' with h | h
        · exact hall m' h
        · rw [List.mem_singleton.mp h]
          exact hcond
      obtain ⟨blocks, hflat, hfa, hch, t0, ts, heq, hts, htf⟩ :=
        ih (b ++ [m]) (extendTurn c m) (by simp) h2 h3
      refine ⟨blocks, ?_, hstep ▸ hfa, hstep ▸ hch, t0, ts,
        hstep ▸ heq, hts, htf⟩
      rw [hflat, List.append_assoc]
      rfl
    · have hstep : turnsGo c (m :: rest) =
          freezeTurn c :: turnsGo (seedTurn m) rest := by
        simp [turnsGo, if_neg hcond]
      obtain ⟨blocks, hflat, hfa, hch, t0, ts, heq, hts, htf⟩ :=
        ih [m] (seedTurn m) (by simp) (by simp [seedTurn])
          (by intro m' hm'
              rw [List.mem_singleton.mp hm']
              exact ⟨rfl, rfl⟩)
      have hturnof : TurnOf b (freezeTurn c) :=
        ⟨hb, by simpa [freezeTurn] using hm,
         fun m' h' => by simpa [freezeTurn] using hall m' h'⟩
      refine ⟨b :: blocks, ?_, ?_, ?_, freezeTurn c,
        turnsGo (seedTurn m) rest, hstep, rfl, rfl⟩
      · simp [hflat]
      · rw [hstep]
        exact List.Forall₂.cons hturnof hfa
      · rw [hstep, heq]
        refine List.chain'_cons.mpr ⟨?_, heq ▸ hch⟩
        intro hcon
        exact hcond ⟨hts.symm.trans hcon.1, htf.symm.trans hcon.2⟩

/-- In a block decomposition, each turn's message list is its block's texts. -/
theorem forall₂_turnof_map {blocks : List (List ProcessedMessage)}
    {ts : List Turn} (h : List.Forall₂ TurnOf blocks ts) :
    ts.map Turn.messages =
      blocks.map (fun b => b.map ProcessedMessage.text) := by
  induction h with
  | nil => rfl
  | cons h1 h2 ih => simp [ih, h1.2.1]

/-- In a block decomposition, no turn's message list is empty. -/
theorem forall₂_turnof_nonempty {blocks : List (List ProcessedMessage)}
    {ts : List Turn} (h : List.Forall₂ TurnOf blocks ts) :
    ∀ t ∈ ts, t.messages ≠ [] := by
  induction h with
  | nil => intro t ht; simp at ht
  | cons h1 h2 ih =>
    intro t ht
    rcases List.mem_cons.mp ht with h | h
    · subst h
      rw [h1.2.1]
      simpa using h1.1
    · exact ih t h

/-- C1: on a non-empty message list, `group_messages_into_turns` decomposes
the input into non-empty consecutive blocks, one per turn, each turn's
messages uniform in `(sender_id, is_from_me)` and adjacent turns differing;
concatenating the turns' message lists reconstructs the input texts exactly,
and the final in-progress turn is emitted; empty input yields `[]`. -/
theorem C1_turn_segmentation :
    group_messages_into_turns [] = [] ∧
    ∀ msgs : List ProcessedMessage, msgs ≠ [] →
      ∃ blocks : List (List ProcessedMessage),
        blocks.flatten = msgs ∧
        List.Forall₂ TurnOf blocks (group_messages_into_turns msgs) ∧
        List.Chain' turnsDiffer (group_messages_into_turns msgs) ∧
        ((group_messages_into_turns msgs).map Turn.messages).flatten =
          msgs.map ProcessedMessage.text ∧
        ∀ t ∈ group_messages_into_turns msgs, t.messages ≠ [] := by
  refine ⟨rfl, ?_⟩
  intro msgs hne
  match msgs with
  | m :: rest =>
    obtain ⟨blocks, hflat, hfa, hch, -⟩ :=
      turnsGo_decomp rest [m] (seedTurn m) (by simp) (by simp [seedTurn])
        (by intro m' hm'
            rw [List.mem_singleton.mp hm']
            exact ⟨rfl, rfl⟩)
    have hgroup : group_messages_into_turns (m :: rest) =
        turnsGo (seedTurn m) rest := rfl
    rw [hgroup]
    refine ⟨blocks, by simpa using hflat, hfa, hch, ?_,
      forall₂_turnof_nonempty hfa⟩
    rw [forall₂_turnof_map hfa, ← List.map_flatten, hflat]
    rfl

/-- Witness for C1 at Scenario A's three messages. -/
theorem C1_turn_segmentation_witness :
    scenAMsgs ≠ [] ∧
    ((group_messages_into_turns scenAMsgs).map Turn.messages).flatten =
      scenAMsgs.map ProcessedMessage.text := by
  refine ⟨by decide, ?_⟩
  obtain ⟨blocks, h1, h2, h3, h4, h5⟩ :=
    C1_turn_segmentation.2 scenAMsgs (by decide)
  exact h4

/-- Witness for C8: a winning text column, and a blob on which every chain
step fails. -/
theorem C8_extract_text_contract_witness :
    extract_message_text denv0 (some "hi") [] = some "hi" ∧
    extract_message_text
      { pyobjcAvailable := true, keyedUnarchive := fun _ => none,
        legacyUnarchive := fun _ => none } none [97] = none := by
  constructor
  · exact C8_extract_text_contract.1 denv0 "hi" [] (by decide)
  · exact C8_extract_text_contract.2 (fun _ => none) (fun _ => none) none [97]
      (fun t h => nomatch h) rfl rfl (by decide)

end MyVoice
